import Mathlib

/-!
Shallow embedding of the BaddieBot Opportunity Allocation Engine
(`src/strategic_math.py`) and of the advisor step of the orchestrator
(`src/main.py`).

Python floats are modelled as rationals (ℚ); Python ints as ℤ/ℕ.
`round(x, 2)` is modelled as round-half-to-even on hundredths, matching
Python's banker rounding, and the `f-string` formatting `f"{x:.2f}"` is
modelled by `formatFixed2`.
-/

namespace BaddieBot

/-- Round-half-to-even on rationals, the rounding Python's builtin `round`
uses: nearest integer, ties to the even integer. -/
def roundHalfEven (x : ℚ) : ℤ :=
  if x - (⌊x⌋ : ℚ) < 1/2 then ⌊x⌋
  else if 1/2 < x - (⌊x⌋ : ℚ) then ⌊x⌋ + 1
  else if ⌊x⌋ % 2 = 0 then ⌊x⌋ else ⌊x⌋ + 1

/-- Python's `round(x, 2)`: round to the nearest hundredth, ties to even. -/
def round2 (x : ℚ) : ℚ := ((roundHalfEven (100 * x) : ℤ) : ℚ) / 100

/-- Model of the Python format spec used in the f-string at
src/strategic_math.py line 88: the value rounded to two decimal places and
printed with exactly two digits after the point. -/
def formatFixed2 (x : ℚ) : String :=
  (if roundHalfEven (100 * x) < 0 then "-" else "") ++
    toString ((roundHalfEven (100 * x)).natAbs / 100) ++ "." ++
    (if (roundHalfEven (100 * x)).natAbs % 100 < 10
      then "0" ++ toString ((roundHalfEven (100 * x)).natAbs % 100)
      else toString ((roundHalfEven (100 * x)).natAbs % 100))

/-- Step 1 of `calculate_kelly_bet` (src/strategic_math.py line 16):
`market_prob = market_price_cents / 100.0`. -/
def market_prob (market_price_cents : ℤ) : ℚ := (market_price_cents : ℚ) / 100

/-- Step 2 (line 24): `kelly_percentage = (ai_probability - market_prob) / (1 - market_prob)`. -/
def kelly_percentage (ai_probability : ℚ) (market_price_cents : ℤ) : ℚ :=
  (ai_probability - market_prob market_price_cents) / (1 - market_prob market_price_cents)

/-- Step 3 (line 27): `safe_kelly = kelly_percentage * kelly_fraction`. -/
def safe_kelly (ai_probability : ℚ) (market_price_cents : ℤ) (kelly_fraction : ℚ) : ℚ :=
  kelly_percentage ai_probability market_price_cents * kelly_fraction

/-- Step 4 (line 30): `raw_bet_amount = bankroll * safe_kelly`. -/
def raw_bet_amount (ai_probability : ℚ) (market_price_cents : ℤ)
    (bankroll kelly_fraction : ℚ) : ℚ :=
  bankroll * safe_kelly ai_probability market_price_cents kelly_fraction

/-- Step 5, constraint A (line 34): `bet_amount = min(raw_bet_amount, daily_limit_remaining)`. -/
def bet_amount (ai_probability : ℚ) (market_price_cents : ℤ)
    (bankroll daily_limit_remaining kelly_fraction : ℚ) : ℚ :=
  min (raw_bet_amount ai_probability market_price_cents bankroll kelly_fraction)
    daily_limit_remaining

/-- Line 42: `contract_price_dollars = market_price_cents / 100.0`
(numerically the same expression as `market_prob`). -/
def contract_price_dollars (market_price_cents : ℤ) : ℚ := (market_price_cents : ℚ) / 100

/-- Embedding of `calculate_kelly_bet` (src/strategic_math.py lines 4-45).
Monetary arguments (`bankroll`, `daily_limit_remaining`) are in dollars, as the
source docstring states; the returned pair is `(contract count, spend in dollars)`.
The function has no failure path: every branch of the source is a `return`. -/
def calculate_kelly_bet (ai_probability : ℚ) (market_price_cents : ℤ)
    (bankroll daily_limit_remaining : ℚ) (kelly_fraction : ℚ := 1/4) : ℤ × ℚ :=
  if ai_probability ≤ market_prob market_price_cents + 1/20 then (0, 0)
  else if bet_amount ai_probability market_price_cents bankroll daily_limit_remaining
      kelly_fraction < 1 then (0, 0)
  else
    (⌊bet_amount ai_probability market_price_cents bankroll daily_limit_remaining
        kelly_fraction / contract_price_dollars market_price_cents⌋,
      round2 ((⌊bet_amount ai_probability market_price_cents bankroll daily_limit_remaining
          kelly_fraction / contract_price_dollars market_price_cents⌋ : ℚ) *
        contract_price_dollars market_price_cents))

/-- The `res['market']` sub-dict of a research result. -/
structure MarketInfo where
  ticker : String
  question : String
  yes_price : ℚ
deriving DecidableEq

/-- The `res['analysis']` sub-dict of a research result. -/
structure AnalysisInfo where
  verdict : String
  my_estimated_probability : ℚ
  reasoning : String
  confidence : ℚ
deriving DecidableEq

/-- One element of the `research_results` list passed to
`get_advisor_recommendations`. -/
structure ResearchResult where
  market : MarketInfo
  analysis : AnalysisInfo
deriving DecidableEq

/-- One element of the `recommendations` list built at
src/strategic_math.py lines 85-91; `suggested_bet` is the formatted
dollar string the source stores. -/
structure Recommendation where
  ticker : String
  question : String
  suggested_bet : String
  reason : String
  confidence : ℚ
deriving DecidableEq

/-- The value returned by `get_advisor_recommendations`: the source returns
either the no-edge message string (line 74) or a list of recommendation
dicts (line 93). -/
inductive AdvisorResult where
  | noEdges (msg : String)
  | recs (recommendations : List Recommendation)
deriving DecidableEq

/-- The sentinel string returned at src/strategic_math.py line 74. -/
def no_edges_message : String := "🚫 No strong edges found today. Keep your $10."

/-- The verdict value excluded by the filter at line 61. -/
def pass_verdict : String := "PASS"

/-- The per-result edge computed at src/strategic_math.py line 66:
`edge = max(0, abs(ai_prob - market_prob))`, with
`market_prob = res['market']['yes_price'] / 100.0`. -/
def edge_of (res : ResearchResult) : ℚ :=
  max 0 |res.analysis.my_estimated_probability - res.market.yes_price / 100|

/-- The `active_opportunities` list built by the loop at lines 59-71: results
whose verdict is not `"PASS"` and whose edge exceeds 0.05. -/
def active_opportunities (research_results : List ResearchResult) : List ResearchResult :=
  research_results.filter fun res =>
    (res.analysis.verdict != pass_verdict) && decide ((1:ℚ)/20 < edge_of res)

/-- The `total_edge_points` accumulator at lines 57-71: the sum of the edges
of the active opportunities. -/
def total_edge_points (research_results : List ResearchResult) : ℚ :=
  ((active_opportunities research_results).map edge_of).sum

/-- The numeric `suggested_spend` values computed at lines 82-83, one per
active opportunity: `weight = edge_score / total_edge_points` and
`suggested_spend = total_daily_budget * weight`. -/
def suggested_spends (research_results : List ResearchResult)
    (total_daily_budget : ℚ) : List ℚ :=
  (active_opportunities research_results).map fun op =>
    total_daily_budget * (edge_of op / total_edge_points research_results)

/-- Embedding of `get_advisor_recommendations` (src/strategic_math.py
lines 47-93). Returns the sentinel string when no opportunity survives the
filter, otherwise the list of recommendation records with the spend formatted
as a dollar string, exactly as the source builds them. -/
def get_advisor_recommendations (research_results : List ResearchResult)
    (total_daily_budget : ℚ) : AdvisorResult :=
  if (active_opportunities research_results).isEmpty then .noEdges no_edges_message
  else
    .recs ((active_opportunities research_results).map fun op =>
      { ticker := op.market.ticker
        question := op.market.question
        suggested_bet := "$" ++
          formatFixed2 (total_daily_budget *
            (edge_of op / total_edge_points research_results))
        reason := op.analysis.reasoning
        confidence := op.analysis.confidence })

/-- Parameter names of `get_advisor_recommendations`
(src/strategic_math.py line 47). -/
def advisor_param_names : List String := ["research_results", "total_daily_budget"]

/-- The parameters of `get_advisor_recommendations` that carry no default
value (`total_daily_budget` defaults to `env.MAX_BET_AMOUNT_CENTS`). -/
def advisor_required_param_names : List String := ["research_results"]

/-- The keyword names used at the advisor call site, src/main.py
lines 120-123: `advisor.get_advisor_recommendations(picks=..., total_budget=...)`. -/
def main_advisor_call_kwargs : List String := ["picks", "total_budget"]

/-- Python keyword-argument binding for a call made with keyword arguments
only: binding succeeds iff every supplied keyword names a declared parameter
and every parameter without a default value is supplied. A call for which
binding fails raises `TypeError` before the function body runs. -/
def kwargs_bind_ok (params required kwargs : List String) : Bool :=
  kwargs.all (fun k => params.contains k) &&
    required.all (fun p => kwargs.contains p)

/-- The `final_orders` entry of `bot_context` when step 4 of
`run_advisor_bot` (src/main.py lines 101-128) finishes, as a function of the
raw picks and the budget. It is initialized to `[]` (line 39); with no picks
the function returns early (lines 107-109); otherwise the advisor call is
attempted, and when keyword binding fails the raised `TypeError` is caught by
the handler at lines 126-128 and the function returns with `final_orders`
still holding its initial empty list. -/
def run_advisor_bot_final_orders (raw_picks : List ResearchResult)
    (budget : ℚ) : AdvisorResult :=
  if raw_picks.isEmpty then .recs []
  else if kwargs_bind_ok advisor_param_names advisor_required_param_names
      main_advisor_call_kwargs then
    get_advisor_recommendations raw_picks budget
  else .recs []

/-- Concrete research result with absolute edge 0.20 (scenario C). -/
def scenario_c_first : ResearchResult where
  market := { ticker := "MKT-A", question := "First question", yes_price := 50 }
  analysis := { verdict := "BUY", my_estimated_probability := 7/10,
                reasoning := "strong signal", confidence := 8 }

/-- Concrete research result with absolute edge 0.10 (scenario C). -/
def scenario_c_second : ResearchResult where
  market := { ticker := "MKT-B", question := "Second question", yes_price := 50 }
  analysis := { verdict := "BUY", my_estimated_probability := 3/5,
                reasoning := "weaker signal", confidence := 5 }

/-- The two-opportunity batch of scenario C. -/
def scenario_c : List ResearchResult := [scenario_c_first, scenario_c_second]

/-- A research result whose estimate (0.30) lies below the market-implied
probability (0.60): a negative-edge opportunity. -/
def negative_edge_result : ResearchResult where
  market := { ticker := "MKT-N", question := "Negative edge question", yes_price := 60 }
  analysis := { verdict := "BUY", my_estimated_probability := 3/10,
                reasoning := "estimate below market", confidence := 6 }

/-- A research result carrying the verdict that the filter excludes. -/
def pass_verdict_result : ResearchResult where
  market := { ticker := "MKT-P", question := "Passed question", yes_price := 40 }
  analysis := { verdict := "PASS", my_estimated_probability := 9/10,
                reasoning := "no action", confidence := 2 }

end BaddieBot

namespace BaddieBot

/-- Unfolding of the filter in `active_opportunities` one element at a time,
with the condition restated as a proposition. -/
lemma active_opportunities_cons (r : ResearchResult) (rs : List ResearchResult) :
    active_opportunities (r :: rs) =
      if r.analysis.verdict ≠ pass_verdict ∧ (1:ℚ)/20 < edge_of r then
        r :: active_opportunities rs
      else active_opportunities rs := by
  have hb : (((r.analysis.verdict != pass_verdict) &&
      decide ((1:ℚ)/20 < edge_of r)) = true) ↔
      (r.analysis.verdict ≠ pass_verdict ∧ (1:ℚ)/20 < edge_of r) := by
    simp [bne_iff_ne]
  by_cases h : r.analysis.verdict ≠ pass_verdict ∧ (1:ℚ)/20 < edge_of r
  · rw [if_pos h]
    simp only [active_opportunities, List.filter_cons, if_pos (hb.2 h)]
  · rw [if_neg h]
    simp only [active_opportunities, List.filter_cons,
      if_neg (fun hc => h (hb.1 hc))]

/-- The filter on the empty batch. -/
lemma active_opportunities_nil : active_opportunities [] = [] := rfl

/-- Every active opportunity passed the strict 0.05 edge gate. -/
lemma edge_of_mem_active {r : ResearchResult} {rs : List ResearchResult}
    (h : r ∈ active_opportunities rs) : (1:ℚ)/20 < edge_of r := by
  have hp := List.of_mem_filter h
  simp only [Bool.and_eq_true, bne_iff_ne, ne_eq, decide_eq_true_eq] at hp
  exact hp.2

/-- When at least one opportunity survives the filter, the accumulated
total edge is strictly positive. -/
lemma total_edge_points_pos (rs : List ResearchResult)
    (h : active_opportunities rs ≠ []) : 0 < total_edge_points rs := by
  refine List.sum_pos _ (fun x hx => ?_) ?_
  · obtain ⟨r, hr, hxr⟩ := List.mem_map.1 hx
    have := edge_of_mem_active hr
    subst hxr
    linarith
  · simpa using h

/-- When at least one opportunity survives the filter, the numeric suggested
spends sum to exactly the budget: the weights `edge / total_edge` sum to 1. -/
lemma suggested_spends_sum (rs : List ResearchResult) (budget : ℚ)
    (h : active_opportunities rs ≠ []) :
    (suggested_spends rs budget).sum = budget := by
  have hT : 0 < total_edge_points rs := total_edge_points_pos rs h
  have hfun : (fun op => budget * (edge_of op / total_edge_points rs)) =
      fun op => (budget / total_edge_points rs) * edge_of op := by
    funext op
    ring
  rw [suggested_spends, hfun, List.sum_map_mul_left]
  rw [show ((active_opportunities rs).map edge_of).sum = total_edge_points rs from rfl]
  exact div_mul_cancel₀ budget hT.ne'

/-- Claim C1: budget conservation under the proportional policy. For every
list of research results and every non-negative budget, the sum of the
per-opportunity suggested spends produced by `get_advisor_recommendations`
is at most the budget; the allocator never overspends. (In the source the
spends are exact rationals, so the sum equals the budget whenever any
opportunity survives, and is 0 otherwise.) -/
theorem proportional_budget_conservation (research_results : List ResearchResult)
    (budget : ℚ) (hb : 0 ≤ budget) :
    (suggested_spends research_results budget).sum ≤ budget := by
  by_cases h : active_opportunities research_results = []
  · rw [suggested_spends, h]
    simpa using hb
  · exact le_of_eq (suggested_spends_sum research_results budget h)

/-- Witness for C1 at the concrete scenario-C batch and a 1000-cent budget. -/
theorem proportional_budget_conservation_witness :
    (0:ℚ) ≤ 1000 ∧ (suggested_spends scenario_c 1000).sum ≤ 1000 :=
  ⟨by norm_num, proportional_budget_conservation scenario_c 1000 (by norm_num)⟩

/-- Claim C2: the Kelly sizer's minimum-edge gate. Whenever the estimated
probability is at most the market-implied probability plus 0.05, the function
returns `(0, 0)`, for every bankroll, remaining limit and Kelly fraction. -/
theorem kelly_min_edge_gate (ai_probability : ℚ) (market_price_cents : ℤ)
    (bankroll daily_limit_remaining kelly_fraction : ℚ)
    (h : ai_probability ≤ market_prob market_price_cents + 1/20) :
    calculate_kelly_bet ai_probability market_price_cents bankroll
      daily_limit_remaining kelly_fraction = (0, 0) := by
  rw [calculate_kelly_bet, if_pos h]

/-- Witness for C2 at scenario B: price 52¢ and estimated probability 0.55
(edge 0.03, below the 5-point gate) yield `(0, 0)`. -/
theorem kelly_min_edge_gate_witness :
    ((11:ℚ)/20 ≤ market_prob 52 + 1/20) ∧
      calculate_kelly_bet (11/20) 52 1000 1000 (1/4) = (0, 0) :=
  ⟨by norm_num [market_prob],
    kelly_min_edge_gate (11/20) 52 1000 1000 (1/4) (by norm_num [market_prob])⟩

/-- Claim C3: scenario A, stated in the source's dollar units (the source
docstring takes `bankroll` and `daily_limit_remaining` in dollars, so
100000 cents enter as 1000 dollars and the cent figures of the claim are the
dollar results scaled by 100). With price 60¢, estimated probability 0.75,
bankroll 100000¢, budget remaining 100000¢ and Kelly fraction 0.25:
`kelly = 0.375`, `safe_kelly = 0.09375`, `raw_bet = 9375¢`, the clamped bet
is 9375¢, and the function returns 156 contracts for a spend of 9360¢. -/
theorem kelly_scenario_a :
    kelly_percentage (3/4) 60 = 3/8 ∧
    safe_kelly (3/4) 60 (1/4) = 3/32 ∧
    raw_bet_amount (3/4) 60 1000 (1/4) * 100 = 9375 ∧
    bet_amount (3/4) 60 1000 1000 (1/4) * 100 = 9375 ∧
    calculate_kelly_bet (3/4) 60 1000 1000 (1/4) = (156, 468/5) ∧
    (468:ℚ)/5 * 100 = 9360 := by
  refine ⟨?_, ?_, ?_, ?_, ?_, by norm_num⟩
  · norm_num [kelly_percentage, market_prob]
  · norm_num [safe_kelly, kelly_percentage, market_prob]
  · norm_num [raw_bet_amount, safe_kelly, kelly_percentage, market_prob]
  · norm_num [bet_amount, raw_bet_amount, safe_kelly, kelly_percentage, market_prob]
  · norm_num [calculate_kelly_bet, bet_amount, raw_bet_amount, safe_kelly,
      kelly_percentage, market_prob, contract_price_dollars, round2, roundHalfEven]

/-- Rounding an integer number of hundredths to the nearest hundredth is the
identity. -/
lemma round2_int_over_hundred (n : ℤ) : round2 ((n : ℚ) / 100) = (n : ℚ) / 100 := by
  have h100 : (100 : ℚ) * ((n : ℚ) / 100) = (n : ℚ) := by ring
  have hrhe : roundHalfEven ((n : ℚ)) = n := by
    rw [roundHalfEven, Int.floor_intCast]
    rw [if_pos (by norm_num : (n : ℚ) - (n : ℚ) < 1/2)]
  rw [round2, h100, hrhe]

/-- A contract count times the per-contract dollar price is an integer number
of cents. -/
lemma count_mul_price_cast (c : ℤ) (market_price_cents : ℤ) :
    (c : ℚ) * contract_price_dollars market_price_cents =
      ((c * market_price_cents : ℤ) : ℚ) / 100 := by
  rw [contract_price_dollars]
  push_cast
  ring

/-- The contract count returned by `calculate_kelly_bet` is never negative
when the price is at least one cent. -/
lemma kelly_count_nonneg (ai_probability : ℚ) (market_price_cents : ℤ)
    (bankroll daily_limit_remaining kelly_fraction : ℚ)
    (hp : 1 ≤ market_price_cents) :
    0 ≤ (calculate_kelly_bet ai_probability market_price_cents bankroll
      daily_limit_remaining kelly_fraction).1 := by
  have hpd : 0 < contract_price_dollars market_price_cents := by
    rw [contract_price_dollars]
    have h1 : (1 : ℚ) ≤ (market_price_cents : ℚ) := by exact_mod_cast hp
    linarith
  by_cases h1 : ai_probability ≤ market_prob market_price_cents + 1/20
  · rw [calculate_kelly_bet, if_pos h1]
  · by_cases h2 : bet_amount ai_probability market_price_cents bankroll
        daily_limit_remaining kelly_fraction < 1
    · rw [calculate_kelly_bet, if_neg h1, if_pos h2]
    · rw [calculate_kelly_bet, if_neg h1, if_neg h2]
      have hbet : (1 : ℚ) ≤ bet_amount ai_probability market_price_cents bankroll
        daily_limit_remaining kelly_fraction := not_lt.1 h2
      exact Int.floor_nonneg.2 (div_nonneg (by linarith) hpd.le)

/-- Claim C4: the Kelly sizer's postcondition on valid inputs. The returned
contract count is non-negative, the returned spend equals the count times the
market price (stated in cents: dollars scaled by 100), the spend never
exceeds the remaining daily limit, and whenever the edge gate is passed the
spend is at most the clamped bet, which is at most the remaining limit. -/
theorem kelly_postcondition (ai_probability : ℚ) (market_price_cents : ℤ)
    (bankroll daily_limit_remaining kelly_fraction : ℚ) (count : ℤ) (spend : ℚ)
    (hp1 : 1 ≤ market_price_cents) (hp99 : market_price_cents ≤ 99)
    (hprob0 : 0 ≤ ai_probability) (hprob1 : ai_probability ≤ 1)
    (hbank : 0 ≤ bankroll) (hlimit : 0 ≤ daily_limit_remaining)
    (hkf : 0 ≤ kelly_fraction)
    (heq : calculate_kelly_bet ai_probability market_price_cents bankroll
      daily_limit_remaining kelly_fraction = (count, spend)) :
    0 ≤ count ∧ spend * 100 = (count : ℚ) * (market_price_cents : ℚ) ∧
      spend ≤ daily_limit_remaining ∧
      (market_prob market_price_cents + 1/20 < ai_probability →
        spend ≤ bet_amount ai_probability market_price_cents bankroll
            daily_limit_remaining kelly_fraction ∧
          bet_amount ai_probability market_price_cents bankroll
            daily_limit_remaining kelly_fraction ≤ daily_limit_remaining) := by
  have hpd : 0 < contract_price_dollars market_price_cents := by
    rw [contract_price_dollars]
    have h1 : (1 : ℚ) ≤ (market_price_cents : ℚ) := by exact_mod_cast hp1
    linarith
  by_cases h1 : ai_probability ≤ market_prob market_price_cents + 1/20
  · rw [calculate_kelly_bet, if_pos h1] at heq
    injection heq with hc hs
    subst hc
    subst hs
    exact ⟨le_refl 0, by norm_num, hlimit, fun hc => absurd hc (not_lt.2 h1)⟩
  · have hgate := not_le.1 h1
    have hmp : market_prob market_price_cents < 1 := by
      rw [market_prob]
      have h99 : (market_price_cents : ℚ) ≤ 99 := by exact_mod_cast hp99
      linarith
    have hkelly : 0 < kelly_percentage ai_probability market_price_cents := by
      rw [kelly_percentage]
      exact div_pos (by linarith) (by linarith)
    have hraw : 0 ≤ raw_bet_amount ai_probability market_price_cents bankroll
        kelly_fraction := mul_nonneg hbank (mul_nonneg hkelly.le hkf)
    have hbetle : bet_amount ai_probability market_price_cents bankroll
        daily_limit_remaining kelly_fraction ≤ daily_limit_remaining :=
      min_le_right _ _
    have hbet0 : 0 ≤ bet_amount ai_probability market_price_cents bankroll
        daily_limit_remaining kelly_fraction := le_min hraw hlimit
    by_cases h2 : bet_amount ai_probability market_price_cents bankroll
        daily_limit_remaining kelly_fraction < 1
    · rw [calculate_kelly_bet, if_neg h1, if_pos h2] at heq
      injection heq with hc hs
      subst hc
      subst hs
      exact ⟨le_refl 0, by norm_num, hlimit, fun _ => ⟨hbet0, hbetle⟩⟩
    · have hbet1 : (1 : ℚ) ≤ bet_amount ai_probability market_price_cents bankroll
        daily_limit_remaining kelly_fraction := not_lt.1 h2
      rw [calculate_kelly_bet, if_neg h1, if_neg h2] at heq
      injection heq with hc hs
      subst hc
      subst hs
      have hcount0 : 0 ≤ ⌊bet_amount ai_probability market_price_cents bankroll
          daily_limit_remaining kelly_fraction /
            contract_price_dollars market_price_cents⌋ :=
        Int.floor_nonneg.2 (div_nonneg (by linarith) hpd.le)
      have hspend : round2 ((⌊bet_amount ai_probability market_price_cents bankroll
          daily_limit_remaining kelly_fraction /
            contract_price_dollars market_price_cents⌋ : ℚ) *
            contract_price_dollars market_price_cents) =
          (⌊bet_amount ai_probability market_price_cents bankroll
            daily_limit_remaining kelly_fraction /
              contract_price_dollars market_price_cents⌋ : ℚ) *
            contract_price_dollars market_price_cents := by
        rw [count_mul_price_cast, round2_int_over_hundred]
      have hfl : (⌊bet_amount ai_probability market_price_cents bankroll
          daily_limit_remaining kelly_fraction /
            contract_price_dollars market_price_cents⌋ : ℚ) *
            contract_price_dollars market_price_cents ≤
          bet_amount ai_probability market_price_cents bankroll
            daily_limit_remaining kelly_fraction := by
        have h := Int.floor_le (bet_amount ai_probability market_price_cents bankroll
          daily_limit_remaining kelly_fraction /
            contract_price_dollars market_price_cents)
        calc (⌊bet_amount ai_probability market_price_cents bankroll
              daily_limit_remaining kelly_fraction /
                contract_price_dollars market_price_cents⌋ : ℚ) *
              contract_price_dollars market_price_cents
            ≤ bet_amount ai_probability market_price_cents bankroll
                daily_limit_remaining kelly_fraction /
                  contract_price_dollars market_price_cents *
                contract_price_dollars market_price_cents :=
              mul_le_mul_of_nonneg_right h hpd.le
          _ = bet_amount ai_probability market_price_cents bankroll
              daily_limit_remaining kelly_fraction := div_mul_cancel₀ _ hpd.ne'
      refine ⟨hcount0, ?_, ?_, fun _ => ⟨?_, hbetle⟩⟩
      · rw [hspend, contract_price_dollars]
        ring
      · rw [hspend]
        exact hfl.trans hbetle
      · rw [hspend]
        exact hfl

/-- Witness for C4 at the scenario-A input. -/
theorem kelly_postcondition_witness :
    0 ≤ (156 : ℤ) ∧ (468 : ℚ)/5 * 100 = (156 : ℚ) * (60 : ℚ) ∧
      (468 : ℚ)/5 ≤ 1000 ∧
      (market_prob 60 + 1/20 < 3/4 →
        (468 : ℚ)/5 ≤ bet_amount (3/4) 60 1000 1000 (1/4) ∧
          bet_amount (3/4) 60 1000 1000 (1/4) ≤ 1000) := by
  have heq : calculate_kelly_bet (3/4) 60 1000 1000 (1/4) = (156, 468/5) := by
    norm_num [calculate_kelly_bet, bet_amount, raw_bet_amount, safe_kelly,
      kelly_percentage, market_prob, contract_price_dollars, round2, roundHalfEven]
  have h156 : ((156 : ℤ) : ℚ) = (156 : ℚ) := by norm_num
  have h := kelly_postcondition (3/4) 60 1000 1000 (1/4) 156 (468/5)
    (by norm_num) (by norm_num) (by norm_num) (by norm_num) (by norm_num)
    (by norm_num) (by norm_num) heq
  rw [h156] at h
  exact h

/-- Claim C8: weak monotonicity of the contract count in the estimated
probability, for fixed price, bankroll, remaining limit and Kelly fraction,
across the edge gate and the 1-dollar minimum-bet floor. -/
theorem kelly_monotone_in_edge (p q : ℚ) (market_price_cents : ℤ)
    (bankroll daily_limit_remaining kelly_fraction : ℚ)
    (hp1 : 1 ≤ market_price_cents) (hp99 : market_price_cents ≤ 99)
    (hpq : p ≤ q) :
    (calculate_kelly_bet p market_price_cents bankroll daily_limit_remaining
      kelly_fraction).1 ≤
    (calculate_kelly_bet q market_price_cents bankroll daily_limit_remaining
      kelly_fraction).1 := by
  have hpd : 0 < contract_price_dollars market_price_cents := by
    rw [contract_price_dollars]
    have h1 : (1 : ℚ) ≤ (market_price_cents : ℚ) := by exact_mod_cast hp1
    linarith
  by_cases hg1 : p ≤ market_prob market_price_cents + 1/20
  · rw [calculate_kelly_bet, if_pos hg1]
    exact kelly_count_nonneg q market_price_cents bankroll daily_limit_remaining
      kelly_fraction hp1
  · have hg2 : ¬ q ≤ market_prob market_price_cents + 1/20 :=
      fun h => hg1 (hpq.trans h)
    have hplt := not_le.1 hg1
    have hqlt := not_le.1 hg2
    have hmp : market_prob market_price_cents < 1 := by
      rw [market_prob]
      have h99 : (market_price_cents : ℚ) ≤ 99 := by exact_mod_cast hp99
      linarith
    have hk1 : 0 < kelly_percentage p market_price_cents := by
      rw [kelly_percentage]
      exact div_pos (by linarith) (by linarith)
    have hk2 : 0 < kelly_percentage q market_price_cents := by
      rw [kelly_percentage]
      exact div_pos (by linarith) (by linarith)
    have hkle : kelly_percentage p market_price_cents ≤
        kelly_percentage q market_price_cents := by
      rw [kelly_percentage, kelly_percentage]
      exact (div_le_div_iff_of_pos_right (by linarith)).2 (by linarith)
    rcases le_or_lt 0 (bankroll * kelly_fraction) with hK | hK
    · have hraw : raw_bet_amount p market_price_cents bankroll kelly_fraction ≤
          raw_bet_amount q market_price_cents bankroll kelly_fraction := by
        rw [raw_bet_amount, raw_bet_amount, safe_kelly, safe_kelly]
        calc bankroll * (kelly_percentage p market_price_cents * kelly_fraction)
            = bankroll * kelly_fraction * kelly_percentage p market_price_cents := by
              ring
          _ ≤ bankroll * kelly_fraction * kelly_percentage q market_price_cents :=
              mul_le_mul_of_nonneg_left hkle hK
          _ = bankroll * (kelly_percentage q market_price_cents * kelly_fraction) := by
              ring
      have hbet : bet_amount p market_price_cents bankroll daily_limit_remaining
          kelly_fraction ≤ bet_amount q market_price_cents bankroll
            daily_limit_remaining kelly_fraction := min_le_min hraw le_rfl
      by_cases hb1 : bet_amount p market_price_cents bankroll
          daily_limit_remaining kelly_fraction < 1
      · rw [calculate_kelly_bet, if_neg hg1, if_pos hb1]
        exact kelly_count_nonneg q market_price_cents bankroll
          daily_limit_remaining kelly_fraction hp1
      · have hb2 : ¬ bet_amount q market_price_cents bankroll
            daily_limit_remaining kelly_fraction < 1 :=
          fun h => hb1 (lt_of_le_of_lt hbet h)
        rw [calculate_kelly_bet, if_neg hg1, if_neg hb1,
          calculate_kelly_bet, if_neg hg2, if_neg hb2]
        exact Int.floor_mono ((div_le_div_iff_of_pos_right hpd).2 hbet)
    · have hraw1 : raw_bet_amount p market_price_cents bankroll kelly_fraction < 0 := by
        rw [raw_bet_amount, safe_kelly]
        calc bankroll * (kelly_percentage p market_price_cents * kelly_fraction)
            = bankroll * kelly_fraction * kelly_percentage p market_price_cents := by
              ring
          _ < 0 := mul_neg_of_neg_of_pos hK hk1
      have hraw2 : raw_bet_amount q market_price_cents bankroll kelly_fraction < 0 := by
        rw [raw_bet_amount, safe_kelly]
        calc bankroll * (kelly_percentage q market_price_cents * kelly_fraction)
            = bankroll * kelly_fraction * kelly_percentage q market_price_cents := by
              ring
          _ < 0 := mul_neg_of_neg_of_pos hK hk2
      have hb1 : bet_amount p market_price_cents bankroll daily_limit_remaining
          kelly_fraction < 1 :=
        lt_of_le_of_lt (min_le_left _ _) (by linarith)
      have hb2 : bet_amount q market_price_cents bankroll daily_limit_remaining
          kelly_fraction < 1 :=
        lt_of_le_of_lt (min_le_left _ _) (by linarith)
      rw [calculate_kelly_bet, if_neg hg1, if_pos hb1,
        calculate_kelly_bet, if_neg hg2, if_pos hb2]

/-- Witness for C8: probabilities 0.70 and 0.75 at price 60¢ with bankroll
and limit 1000 dollars and quarter Kelly. -/
theorem kelly_monotone_in_edge_witness :
    (1 : ℤ) ≤ 60 ∧ (60 : ℤ) ≤ 99 ∧ (7 : ℚ)/10 ≤ 3/4 ∧
      (calculate_kelly_bet (7/10) 60 1000 1000 (1/4)).1 ≤
        (calculate_kelly_bet (3/4) 60 1000 1000 (1/4)).1 :=
  ⟨by norm_num, by norm_num, by norm_num,
    kelly_monotone_in_edge (7/10) (3/4) 60 1000 1000 (1/4)
      (by norm_num) (by norm_num) (by norm_num)⟩

/-- The edge the source computes for the negative-edge example: the absolute
deviation 0.30, although the signed edge is −0.30. -/
lemma edge_of_negative_edge_result : edge_of negative_edge_result = 3/10 := by
  have hsub : negative_edge_result.analysis.my_estimated_probability -
      negative_edge_result.market.yes_price / 100 = -(3/10) := by
    norm_num [negative_edge_result]
  rw [edge_of, hsub, abs_neg, abs_of_nonneg (by norm_num : (0:ℚ) ≤ 3/10),
    max_eq_right (by norm_num : (0:ℚ) ≤ 3/10)]

/-- The negative-edge example survives the source's filter. -/
lemma active_negative_edge :
    active_opportunities [negative_edge_result] = [negative_edge_result] := by
  rw [active_opportunities_cons,
    if_pos ⟨by decide, by rw [edge_of_negative_edge_result]; norm_num⟩,
    active_opportunities_nil]

/-- The edge of the first scenario-C opportunity. -/
lemma edge_of_scenario_c_first : edge_of scenario_c_first = 1/5 := by
  have hsub : scenario_c_first.analysis.my_estimated_probability -
      scenario_c_first.market.yes_price / 100 = 1/5 := by
    norm_num [scenario_c_first]
  rw [edge_of, hsub, abs_of_nonneg (by norm_num : (0:ℚ) ≤ 1/5),
    max_eq_right (by norm_num : (0:ℚ) ≤ 1/5)]

/-- The edge of the second scenario-C opportunity. -/
lemma edge_of_scenario_c_second : edge_of scenario_c_second = 1/10 := by
  have hsub : scenario_c_second.analysis.my_estimated_probability -
      scenario_c_second.market.yes_price / 100 = 1/10 := by
    norm_num [scenario_c_second]
  rw [edge_of, hsub, abs_of_nonneg (by norm_num : (0:ℚ) ≤ 1/10),
    max_eq_right (by norm_num : (0:ℚ) ≤ 1/10)]

/-- The first scenario-C opportunity survives the filter on its own. -/
lemma active_scenario_c_first :
    active_opportunities [scenario_c_first] = [scenario_c_first] := by
  rw [active_opportunities_cons,
    if_pos ⟨by decide, by rw [edge_of_scenario_c_first]; norm_num⟩,
    active_opportunities_nil]

/-- Both scenario-C opportunities survive the filter. -/
lemma active_scenario_c :
    active_opportunities scenario_c = [scenario_c_first, scenario_c_second] := by
  rw [scenario_c, active_opportunities_cons,
    if_pos ⟨by decide, by rw [edge_of_scenario_c_first]; norm_num⟩,
    active_opportunities_cons,
    if_pos ⟨by decide, by rw [edge_of_scenario_c_second]; norm_num⟩,
    active_opportunities_nil]

/-- Claim C5 counterexample: the source's edge score is the absolute
deviation, not `max(0, estimated_probability − market_price/100)`. For an
opportunity with estimate 0.30 at price 60¢ the claimed formula gives 0 (it
would fail the gate and receive nothing), but the source computes 0.30, the
opportunity survives the filter, and it receives the entire 1000-cent
budget. -/
theorem signed_edge_counterexample :
    edge_of negative_edge_result = 3/10 ∧
    max (0:ℚ) (negative_edge_result.analysis.my_estimated_probability -
      negative_edge_result.market.yes_price / 100) = 0 ∧
    suggested_spends [negative_edge_result] 1000 = [1000] := by
  refine ⟨edge_of_negative_edge_result, ?_, ?_⟩
  · have hsub : negative_edge_result.analysis.my_estimated_probability -
        negative_edge_result.market.yes_price / 100 = -(3/10) := by
      norm_num [negative_edge_result]
    rw [hsub, max_eq_left (by norm_num : -(3/10 : ℚ) ≤ 0)]
  · rw [suggested_spends, active_negative_edge, List.map_cons, List.map_nil,
      total_edge_points, active_negative_edge, List.map_cons, List.map_nil,
      edge_of_negative_edge_result]
    norm_num

/-- Claim C5 amended: the per-opportunity edge score equals the absolute
deviation `|estimated_probability − market_price/100|` (the `max 0 (abs ...)`
of the source, where the `max` is redundant), and any non-PASS opportunity
whose absolute deviation exceeds 0.05 — in either direction, negative edge
included — survives the filter and is sized. -/
theorem absolute_edge_amended :
    (∀ r : ResearchResult, edge_of r =
      |r.analysis.my_estimated_probability - r.market.yes_price / 100|) ∧
    (∀ r : ResearchResult, r.analysis.verdict ≠ pass_verdict →
      (1:ℚ)/20 < |r.analysis.my_estimated_probability - r.market.yes_price / 100| →
      active_opportunities [r] = [r]) := by
  have habs : ∀ r : ResearchResult, edge_of r =
      |r.analysis.my_estimated_probability - r.market.yes_price / 100| := by
    intro r
    rw [edge_of, max_eq_right (abs_nonneg _)]
  refine ⟨habs, fun r hv he => ?_⟩
  rw [active_opportunities_cons, if_pos ⟨hv, by rw [habs r]; exact he⟩,
    active_opportunities_nil]

/-- Witness for the amended C5 at the negative-edge example. -/
theorem absolute_edge_amended_witness :
    negative_edge_result.analysis.verdict ≠ pass_verdict ∧
    (1:ℚ)/20 < |negative_edge_result.analysis.my_estimated_probability -
      negative_edge_result.market.yes_price / 100| ∧
    active_opportunities [negative_edge_result] = [negative_edge_result] := by
  have hv : negative_edge_result.analysis.verdict ≠ pass_verdict := by decide
  have he : (1:ℚ)/20 < |negative_edge_result.analysis.my_estimated_probability -
      negative_edge_result.market.yes_price / 100| := by
    have hsub : negative_edge_result.analysis.my_estimated_probability -
        negative_edge_result.market.yes_price / 100 = -(3/10) := by
      norm_num [negative_edge_result]
    rw [hsub, abs_neg, abs_of_nonneg (by norm_num : (0:ℚ) ≤ 3/10)]
    norm_num
  exact ⟨hv, he, absolute_edge_amended.2 negative_edge_result hv he⟩

/-- Claim C6 counterexample: on a batch with no survivor the source does not
return an empty list; it returns the sentinel message string. -/
theorem no_survivor_string_counterexample :
    get_advisor_recommendations [] 1000 = .noEdges no_edges_message ∧
    get_advisor_recommendations [] 1000 ≠ .recs [] := by
  constructor
  · rfl
  · intro h
    exact AdvisorResult.noConfusion (h.symm.trans rfl)

/-- Claim C6 amended: for every batch in which no opportunity survives the
filter (the empty batch included) the source returns the sentinel string
`no_edges_message` — a string value, not an empty list and not an
exception. -/
theorem no_survivor_sentinel_amended (research_results : List ResearchResult)
    (total_daily_budget : ℚ)
    (h : active_opportunities research_results = []) :
    get_advisor_recommendations research_results total_daily_budget =
      .noEdges no_edges_message := by
  rw [get_advisor_recommendations, if_pos (by rw [h]; rfl)]

/-- Witness for the amended C6 at a nonempty batch whose single element
carries the excluded verdict. -/
theorem no_survivor_sentinel_amended_witness :
    active_opportunities [pass_verdict_result] = [] ∧
      get_advisor_recommendations [pass_verdict_result] 500 =
        .noEdges no_edges_message := by
  have h : active_opportunities [pass_verdict_result] = [] := by
    rw [active_opportunities_cons, if_neg (fun hc => hc.1 rfl),
      active_opportunities_nil]
  exact ⟨h, no_survivor_sentinel_amended [pass_verdict_result] 500 h⟩

/-- Claim C7 counterexample: no precondition is validated. A probability of
1.5 (outside [0,1]) is sized to a positive trade of 937 contracts; a price of
−10¢ yields a negative contract count of −1364; a negative budget of −1000¢
is distributed as a negative spend. In each case the source returns a value
rather than raising a descriptive error. -/
theorem no_validation_counterexample :
    calculate_kelly_bet (3/2) 60 1000 1000 (1/4) = (937, 2811/5) ∧
    calculate_kelly_bet (1/2) (-10) 1000 1000 (1/4) = (-1364, 682/5) ∧
    suggested_spends [scenario_c_first] (-1000) = [-1000] := by
  refine ⟨?_, ?_, ?_⟩
  · norm_num [calculate_kelly_bet, bet_amount, raw_bet_amount, safe_kelly,
      kelly_percentage, market_prob, contract_price_dollars, round2, roundHalfEven]
  · norm_num [calculate_kelly_bet, bet_amount, raw_bet_amount, safe_kelly,
      kelly_percentage, market_prob, contract_price_dollars, round2, roundHalfEven]
  · rw [suggested_spends, active_scenario_c_first, List.map_cons, List.map_nil,
      total_edge_points, active_scenario_c_first, List.map_cons, List.map_nil,
      edge_of_scenario_c_first]
    norm_num

/-- Claim C7 amended: the sizing functions perform no precondition
validation. An out-of-range probability that passes the arithmetic gate is
sized to a positive trade by the ordinary Kelly arithmetic, and the
proportional allocator distributes any budget — negative budgets included —
so that the spends sum exactly to it, returning values rather than failing
fast. -/
theorem no_validation_amended :
    (∀ bankroll daily_limit_remaining : ℚ, 100 ≤ bankroll →
      100 ≤ daily_limit_remaining →
      0 < (calculate_kelly_bet (3/2) 60 bankroll daily_limit_remaining (1/4)).1) ∧
    (∀ (research_results : List ResearchResult) (total_daily_budget : ℚ),
      active_opportunities research_results ≠ [] →
      (suggested_spends research_results total_daily_budget).sum =
        total_daily_budget) := by
  constructor
  · intro bankroll daily_limit_remaining hb hl
    have hgate : ¬((3:ℚ)/2 ≤ market_prob 60 + 1/20) := by
      norm_num [market_prob]
    have hbetlb : (225:ℚ)/4 ≤ bet_amount (3/2) 60 bankroll
        daily_limit_remaining (1/4) := by
      rw [bet_amount, raw_bet_amount, safe_kelly, kelly_percentage, market_prob]
      have hc : ((3:ℚ)/2 - (60:ℤ)/100)/(1 - (60:ℤ)/100) * (1/4) = 9/16 := by
        norm_num
      refine le_min ?_ (by linarith)
      rw [hc]
      linarith
    have hb2 : ¬(bet_amount (3/2) 60 bankroll daily_limit_remaining (1/4) < 1) :=
      not_lt.2 (by linarith)
    rw [calculate_kelly_bet, if_neg hgate, if_neg hb2]
    have hcpd : contract_price_dollars 60 = 3/5 := by
      norm_num [contract_price_dollars]
    have h1 : (1:ℤ) ≤ ⌊bet_amount (3/2) 60 bankroll daily_limit_remaining (1/4) /
        contract_price_dollars 60⌋ := by
      refine Int.le_floor.2 ?_
      rw [hcpd]
      rw [le_div_iff₀ (by norm_num : (0:ℚ) < 3/5)]
      push_cast
      linarith
    linarith
  · exact fun rs b h => suggested_spends_sum rs b h

/-- Witness for the amended C7: the invalid probability 1.5 at concrete
bankroll and limit, and the negative budget −1000 on a surviving batch. -/
theorem no_validation_amended_witness :
    ((100:ℚ) ≤ 1000 ∧
      0 < (calculate_kelly_bet (3/2) 60 1000 1000 (1/4)).1) ∧
    (active_opportunities [scenario_c_first] ≠ [] ∧
      (suggested_spends [scenario_c_first] (-1000)).sum = -1000) := by
  have hact : active_opportunities [scenario_c_first] ≠ [] := by
    rw [active_scenario_c_first]
    exact List.cons_ne_nil _ _
  exact ⟨⟨by norm_num, no_validation_amended.1 1000 1000 (by norm_num) (by norm_num)⟩,
    ⟨hact, no_validation_amended.2 [scenario_c_first] (-1000) hact⟩⟩

/-- Claim C9 counterexample: with edge scores 0.20 and 0.10 and a 1000-cent
budget the source computes the exact fractional spends 2000/3 and 1000/3; it
does not round them to the integer shares 667 and 333, and it never floors a
share to a whole-contract count. -/
theorem proportional_share_counterexample :
    suggested_spends scenario_c 1000 = [2000/3, 1000/3] ∧
    ((2000:ℚ)/3 ≠ 667) ∧ ((1000:ℚ)/3 ≠ 333) := by
  refine ⟨?_, by norm_num, by norm_num⟩
  have htot : total_edge_points scenario_c = 3/10 := by
    rw [total_edge_points, active_scenario_c, List.map_cons, List.map_cons,
      List.map_nil, edge_of_scenario_c_first, edge_of_scenario_c_second]
    norm_num
  rw [suggested_spends, active_scenario_c, List.map_cons, List.map_cons,
    List.map_nil, htot, edge_of_scenario_c_first, edge_of_scenario_c_second]
  norm_num

/-- The formatted spend string of the first scenario-C opportunity. -/
lemma format_scenario_c_first :
    formatFixed2 (1000 * (edge_of scenario_c_first / total_edge_points scenario_c)) =
      "666.67" := by
  have htot : total_edge_points scenario_c = 3/10 := by
    rw [total_edge_points, active_scenario_c, List.map_cons, List.map_cons,
      List.map_nil, edge_of_scenario_c_first, edge_of_scenario_c_second]
    norm_num
  rw [edge_of_scenario_c_first, htot]
  have harg : (1000:ℚ) * (1/5 / (3/10)) = 2000/3 := by norm_num
  rw [harg]
  have h : roundHalfEven (100 * ((2000:ℚ)/3)) = 66667 := by
    norm_num [roundHalfEven]
  rw [formatFixed2, h]
  rfl

/-- The formatted spend string of the second scenario-C opportunity. -/
lemma format_scenario_c_second :
    formatFixed2 (1000 * (edge_of scenario_c_second / total_edge_points scenario_c)) =
      "333.33" := by
  have htot : total_edge_points scenario_c = 3/10 := by
    rw [total_edge_points, active_scenario_c, List.map_cons, List.map_cons,
      List.map_nil, edge_of_scenario_c_first, edge_of_scenario_c_second]
    norm_num
  rw [edge_of_scenario_c_second, htot]
  have harg : (1000:ℚ) * (1/10 / (3/10)) = 1000/3 := by norm_num
  rw [harg]
  have h : roundHalfEven (100 * ((1000:ℚ)/3)) = 33333 := by
    norm_num [roundHalfEven]
  rw [formatFixed2, h]
  rfl

/-- Claim C9 amended: for each surviving opportunity the allocator assigns
weight `edge_score / total_edge` and the exact fractional spend
`budget * weight`; it performs no rounding to integer cent shares and no
conversion to whole contracts — the recommendation records carry the spend
only as a two-decimal dollar string. Concretely, edges 0.20 and 0.10 with a
1000-cent budget yield the formatted spends 666.67 and 333.33. -/
theorem proportional_fractional_spend_amended :
    get_advisor_recommendations scenario_c 1000 = .recs
      [{ ticker := "MKT-A", question := "First question",
         suggested_bet := "$666.67", reason := "strong signal", confidence := 8 },
       { ticker := "MKT-B", question := "Second question",
         suggested_bet := "$333.33", reason := "weaker signal", confidence := 5 }] := by
  rw [get_advisor_recommendations, if_neg (by rw [active_scenario_c]; simp)]
  rw [active_scenario_c, List.map_cons, List.map_cons, List.map_nil]
  rw [format_scenario_c_first, format_scenario_c_second]
  rfl

/-- Claim C10: in `run_advisor_bot`, whenever the researcher produced at
least one raw pick, the advisor call's keyword arguments `picks` and
`total_budget` fail to bind to the parameters `research_results` and
`total_daily_budget`, so the call raises `TypeError`; the handler catches it
and the function returns with `final_orders` still the initial empty list,
so the sizing math never contributes to the output. -/
theorem advisor_call_type_error (raw_picks : List ResearchResult) (budget : ℚ)
    (h : raw_picks ≠ []) :
    kwargs_bind_ok advisor_param_names advisor_required_param_names
        main_advisor_call_kwargs = false ∧
      run_advisor_bot_final_orders raw_picks budget = .recs [] := by
  have hbind : kwargs_bind_ok advisor_param_names advisor_required_param_names
      main_advisor_call_kwargs = false := rfl
  refine ⟨hbind, ?_⟩
  obtain ⟨x, xs, rfl⟩ : ∃ x xs, raw_picks = x :: xs := by
    cases raw_picks with
    | nil => exact absurd rfl h
    | cons x xs => exact ⟨x, xs, rfl⟩
  rw [run_advisor_bot_final_orders,
    if_neg (by simp : ¬((x :: xs).isEmpty = true)),
    if_neg (by rw [hbind]; simp)]

/-- Witness for C10 at a one-pick batch. -/
theorem advisor_call_type_error_witness :
    ([scenario_c_first] : List ResearchResult) ≠ [] ∧
      kwargs_bind_ok advisor_param_names advisor_required_param_names
        main_advisor_call_kwargs = false ∧
      run_advisor_bot_final_orders [scenario_c_first] 1000 = .recs [] :=
  ⟨by simp, advisor_call_type_error [scenario_c_first] 1000 (by simp)⟩

end BaddieBot
